import Mathlib

/-!
Verification of the image-toolbox repository: a one-route proxy endpoint
(`pages/api/generate`) and a client page controller (`pages/index.tsx`,
with the earlier variant `pages/Index.jsx`).

The embedding is shallow: the proxy handler becomes a pure function of the
request method and the outcome of the downstream completion-service call;
`parseResponse` is modelled over `List Char`, mirroring the three regular
expressions of the source (`Description: (.*?)(?:\n|$)`,
`Keywords: (.*?)(?:\n|$)`, `Tokens used: (\d+)`); the client controller
becomes a state record with one function per event handler, and reachability
is the reflexive-transitive closure of those operations from the empty state.
-/

namespace ImageToolbox

/-! ## Proxy endpoint (`pages/api/generate.ts`)

The handler inspects `req.method`, and on POST awaits
`openai.chat.completions.create(req.body)`; the outcome of that call is
modelled as an `Except E R` argument.  The response is a status code plus a
body that is either a fixed error-message object or the downstream response
passed through; `downstreamCalled` records whether the completion service
was invoked. -/

inductive RespBody (R : Type) where
  | errorMsg (msg : String)
  | passthrough (response : R)
deriving DecidableEq

structure HandlerResult (R : Type) where
  status : Nat
  body : RespBody R
  downstreamCalled : Bool
deriving DecidableEq

def handler {E R : Type} (method : String) (downstream : Except E R) : HandlerResult R :=
  if method ≠ "POST" then
    { status := 405, body := RespBody.errorMsg "Method not allowed", downstreamCalled := false }
  else
    match downstream with
    | Except.ok r =>
        { status := 200, body := RespBody.passthrough r, downstreamCalled := true }
    | Except.error _ =>
        { status := 500, body := RespBody.errorMsg "Error processing your request",
          downstreamCalled := true }

/-! ## Response parsing (`parseResponse` in `pages/index.tsx`)

`content.match(/Description: (.*?)(?:\n|$)/)` finds the first occurrence of
the literal marker and captures the (lazy) run of non-newline characters up
to the next newline or the end of the string; since `.` never matches a
newline, the capture is exactly the text from just after the marker up to
the first newline (or the end).  `Tokens used: (\d+)` requires at least one
digit right after the marker, scanning for the first position where that
holds. -/

def digitsToNat (l : List Char) : Nat :=
  l.foldl (fun n c => 10 * n + (c.toNat - 48)) 0

def afterFirst (pat : List Char) : List Char → Option (List Char)
  | [] => if pat.isEmpty then some [] else none
  | c :: cs =>
    if pat.isPrefixOf (c :: cs) then some ((c :: cs).drop pat.length)
    else afterFirst pat cs

def containsSub (pat : List Char) (l : List Char) : Bool :=
  (afterFirst pat l).isSome

def takeLine (l : List Char) : List Char :=
  l.takeWhile (fun c => c ≠ '\n')

def jsTrim (l : List Char) : List Char :=
  ((l.dropWhile Char.isWhitespace).reverse.dropWhile Char.isWhitespace).reverse

def splitOnComma : List Char → List (List Char)
  | [] => [[]]
  | c :: cs =>
    if c = ',' then [] :: splitOnComma cs
    else
      match splitOnComma cs with
      | [] => [[c]]
      | g :: gs => (c :: g) :: gs

def findTokensUsed (pat : List Char) : List Char → Option Nat
  | [] => none
  | c :: cs =>
    if pat.isPrefixOf (c :: cs) && (((c :: cs).drop pat.length).headD ' ').isDigit then
      some (digitsToNat (((c :: cs).drop pat.length).takeWhile Char.isDigit))
    else findTokensUsed pat cs

structure Result where
  description : String
  keywords : List String
  tokensUsed : Nat
deriving DecidableEq

def descMarker : List Char := "Description: ".data

def keywordsMarker : List Char := "Keywords: ".data

def tokensMarker : List Char := "Tokens used: ".data

def parseResponse (content : String) : Result :=
  { description :=
      match afterFirst descMarker content.data with
      | some rest => String.mk (jsTrim (takeLine rest))
      | none => ""
    keywords :=
      match afterFirst keywordsMarker content.data with
      | some rest => (splitOnComma (takeLine rest)).map (fun k => String.mk (jsTrim k))
      | none => []
    tokensUsed :=
      match findTokensUsed tokensMarker content.data with
      | some n => n
      | none => 0 }

/-! ## Client controller (`pages/index.tsx` / `pages/Index.jsx`)

The page holds `images`, `results` and a file-input element.  The file type
`F` is abstract; `URL.createObjectURL` is an abstract function producing a
preview handle.  Each event handler of the source becomes a function on the
state; `handleImageUpload` additionally returns whether the destructive
error toast was shown, and `generateDescriptionAndKeywords` takes the list
of per-image pipeline outcomes (base64 encode, proxy call, response parse),
one per image, success carrying the parsed `Result`. -/

def MAX_IMAGES : Nat := 5

structure ImageData (F : Type) where
  file : F
  preview : Nat
deriving DecidableEq

structure AppState (F : Type) where
  images : List (ImageData F)
  results : List Result
  fileInput : Option String
deriving DecidableEq

def handleImageUpload {F : Type} (createObjectURL : F → Nat) (files : List F)
    (s : AppState F) : AppState F × Bool :=
  if files.length > MAX_IMAGES then (s, true)
  else
    ({ s with
        images := files.map (fun f => { file := f, preview := createObjectURL f })
        results := [] }, false)

/-- `prevImages.filter((_, i) => i !== index)` of the source: keep the
elements whose running index (starting at `k`) differs from `i`. -/
def filterIdx {α : Type} (i : Nat) (k : Nat) : List α → List α
  | [] => []
  | x :: xs => if k ≠ i then x :: filterIdx i (k + 1) xs else filterIdx i (k + 1) xs

def removeImage {F : Type} (s : AppState F) (i : Nat) : AppState F :=
  { s with
      images := filterIdx i 0 s.images
      results := filterIdx i 0 s.results }

/-- The `for (const image of images)` loop of
`generateDescriptionAndKeywords`: successes push a result onto
`newResults`, failures are caught, show a toast and continue.  Returns the
accumulated results together with the number of error toasts shown. -/
def generateLoop : List (Except Unit Result) → List Result × Nat
  | [] => ([], 0)
  | Except.ok r :: rest =>
    ((r :: (generateLoop rest).1), (generateLoop rest).2)
  | Except.error _ :: rest =>
    ((generateLoop rest).1, (generateLoop rest).2 + 1)

/-- The pipeline outcomes that succeeded, in order. -/
def successes : List (Except Unit Result) → List Result
  | [] => []
  | Except.ok r :: rest => r :: successes rest
  | Except.error _ :: rest => successes rest

def generateDescriptionAndKeywords {F : Type} (s : AppState F)
    (outcomes : List (Except Unit Result)) : AppState F :=
  { s with results := (generateLoop outcomes).1 }

def clearAll {F : Type} (s : AppState F) : AppState F :=
  { images := []
    results := []
    fileInput := s.fileInput.map (fun _ => "") }

/-! The earlier client variant `pages/Index.jsx` differs in two of the
handlers.  Its `handleImageUpload` guards on
`images.length + files.length > MAX_IMAGES` and on an accepted selection
runs `setImages(prevImages => [...prevImages, ...newImages])` — it appends
to the image list and never calls `setResults`, so existing results
survive.  Its `clearAll` runs only `setImages([])` and `setResults([])`:
there is no file-input ref and the uncontrolled input keeps its displayed
value. -/

def handleImageUploadJsx {F : Type} (createObjectURL : F → Nat) (files : List F)
    (s : AppState F) : AppState F × Bool :=
  if s.images.length + files.length > MAX_IMAGES then (s, true)
  else
    ({ s with
        images :=
          s.images ++ files.map (fun f => { file := f, preview := createObjectURL f }) },
      false)

def clearAllJsx {F : Type} (s : AppState F) : AppState F :=
  { s with images := [], results := [] }

def initialState (F : Type) : AppState F :=
  { images := [], results := [], fileInput := some "" }

/-- One user-triggered operation of the controller. -/
inductive Step {F : Type} (createObjectURL : F → Nat) : AppState F → AppState F → Prop where
  | select (s : AppState F) (files : List F) :
      Step createObjectURL s (handleImageUpload createObjectURL files s).1
  | remove (s : AppState F) (i : Nat) :
      Step createObjectURL s (removeImage s i)
  | generate (s : AppState F) (outcomes : List (Except Unit Result))
      (h : outcomes.length = s.images.length) :
      Step createObjectURL s (generateDescriptionAndKeywords s outcomes)
  | clear (s : AppState F) :
      Step createObjectURL s (clearAll s)

/-- States reachable from the empty page by any sequence of operations. -/
inductive Reachable {F : Type} (createObjectURL : F → Nat) : AppState F → Prop where
  | init : Reachable createObjectURL (initialState F)
  | step {s t : AppState F} : Reachable createObjectURL s →
      Step createObjectURL s t → Reachable createObjectURL t

/-! Concrete sample data used to instantiate the theorems below. -/

def sampleResult : Result :=
  { description := "a", keywords := ["b"], tokensUsed := 5 }

def sampleState : AppState Nat :=
  { images := [{ file := 7, preview := 3 }]
    results := [sampleResult]
    fileInput := some "photo.png" }

def twoImagesOneResult : AppState Nat :=
  { images := [{ file := 0, preview := 0 }, { file := 1, preview := 1 }]
    results := [sampleResult]
    fileInput := some "" }

def sampleOutcomes : List (Except Unit Result) :=
  [Except.ok { description := "a", keywords := ["b"], tokensUsed := 1 },
   Except.error (),
   Except.ok { description := "c", keywords := ["d"], tokensUsed := 2 }]

/-! ## Helper lemmas -/

theorem isPrefixOf_of_append_isPrefixOf (p q l : List Char)
    (h : (p ++ q).isPrefixOf l = true) : p.isPrefixOf l = true := by
  induction p generalizing l with
  | nil => simp [List.isPrefixOf]
  | cons a as ih =>
    cases l with
    | nil => simp [List.isPrefixOf] at h
    | cons b bs =>
      simp only [List.cons_append, List.isPrefixOf, Bool.and_eq_true] at h ⊢
      exact ⟨h.1, ih bs h.2⟩

theorem containsSub_cons_false (p : List Char) (c : Char) (cs : List Char)
    (h : containsSub p (c :: cs) = false) :
    p.isPrefixOf (c :: cs) = false ∧ containsSub p cs = false := by
  unfold containsSub afterFirst at h
  by_cases hp : p.isPrefixOf (c :: cs)
  · simp [hp] at h
  · simp only [Bool.not_eq_true] at hp
    simp [hp] at h
    refine ⟨hp, ?_⟩
    unfold containsSub
    simp [h]

theorem afterFirst_append_none (p q l : List Char)
    (h : containsSub p l = false) : afterFirst (p ++ q) l = none := by
  induction l with
  | nil =>
    unfold containsSub afterFirst at h
    unfold afterFirst
    by_cases hp : p.isEmpty
    · simp [hp] at h
    · have : (p ++ q).isEmpty = false := by
        cases p with
        | nil => simp [List.isEmpty] at hp
        | cons a as => simp [List.isEmpty]
      simp [this]
  | cons c cs ih =>
    obtain ⟨h1, h2⟩ := containsSub_cons_false p c cs h
    have hpq : (p ++ q).isPrefixOf (c :: cs) = false := by
      cases hx : (p ++ q).isPrefixOf (c :: cs)
      · rfl
      · exact absurd (isPrefixOf_of_append_isPrefixOf p q _ hx) (by simp [h1])
    unfold afterFirst
    simp [hpq]
    exact ih h2

theorem findTokensUsed_append_none (p q l : List Char)
    (h : containsSub p l = false) : findTokensUsed (p ++ q) l = none := by
  induction l with
  | nil => rfl
  | cons c cs ih =>
    obtain ⟨h1, h2⟩ := containsSub_cons_false p c cs h
    have hpq : (p ++ q).isPrefixOf (c :: cs) = false := by
      cases hx : (p ++ q).isPrefixOf (c :: cs)
      · rfl
      · exact absurd (isPrefixOf_of_append_isPrefixOf p q _ hx) (by simp [h1])
    unfold findTokensUsed
    simp [hpq]
    exact ih h2

theorem descMarker_eq : descMarker = "Description:".data ++ [' '] := by decide

theorem keywordsMarker_eq : keywordsMarker = "Keywords:".data ++ [' '] := by decide

theorem tokensMarker_eq : tokensMarker = "Tokens used:".data ++ [' '] := by decide

theorem filterIdx_eq_eraseIdx {α : Type} (i : Nat) (k : Nat) (l : List α) :
    filterIdx i k l = if i < k then l else l.eraseIdx (i - k) := by
  induction l generalizing k with
  | nil => simp [filterIdx, List.eraseIdx]
  | cons x xs ih =>
    unfold filterIdx
    by_cases hk : k = i
    · subst hk
      simp [ih (k + 1), Nat.lt_succ_self, List.eraseIdx]
    · rw [if_pos hk]
      by_cases hlt : i < k
      · rw [ih (k + 1), if_pos (Nat.lt_succ_of_lt hlt), if_pos hlt]
      · have hki : k < i := Nat.lt_of_le_of_ne (Nat.le_of_not_lt hlt) hk
        rw [ih (k + 1), if_neg (by omega), if_neg hlt]
        have : i - k = (i - (k + 1)) + 1 := by omega
        rw [this]
        rfl

theorem filterIdx_zero_eq_eraseIdx {α : Type} (i : Nat) (l : List α) :
    filterIdx i 0 l = l.eraseIdx i := by
  rw [filterIdx_eq_eraseIdx]
  simp

theorem length_eraseIdx' {α : Type} (l : List α) (i : Nat) :
    (l.eraseIdx i).length = if i < l.length then l.length - 1 else l.length := by
  induction l generalizing i with
  | nil => simp [List.eraseIdx]
  | cons x xs ih =>
    cases i with
    | zero => simp [List.eraseIdx]
    | succ n =>
      simp only [List.eraseIdx, List.length_cons, ih n]
      by_cases h : n < xs.length
      · rw [if_pos h, if_pos (by omega)]
        omega
      · rw [if_neg h, if_neg (by omega)]

theorem generateLoop_fst_eq_successes (outcomes : List (Except Unit Result)) :
    (generateLoop outcomes).1 = successes outcomes := by
  induction outcomes with
  | nil => rfl
  | cons o rest ih =>
    cases o with
    | ok r => simp [generateLoop, successes, ih]
    | error e => simp [generateLoop, successes, ih]

theorem generateLoop_fst_length_le (outcomes : List (Except Unit Result)) :
    (generateLoop outcomes).1.length ≤ outcomes.length := by
  induction outcomes with
  | nil => simp [generateLoop]
  | cons o rest ih =>
    cases o with
    | ok r => simp [generateLoop]; omega
    | error e => simp [generateLoop]; omega

theorem generateLoop_snd_pos (outcomes : List (Except Unit Result)) (k : Nat)
    (h : outcomes[k]? = some (Except.error ())) :
    1 ≤ (generateLoop outcomes).2 := by
  induction outcomes generalizing k with
  | nil => simp at h
  | cons o rest ih =>
    cases k with
    | zero =>
      simp at h
      subst h
      simp [generateLoop]
    | succ n =>
      simp only [List.getElem?_cons_succ] at h
      cases o with
      | ok r => simpa [generateLoop] using ih n h
      | error e =>
        simp [generateLoop]

/-! ## Claim theorems -/

/-- C1: whenever the downstream completion-service call of a POST request to
`/api/generate` throws, the handler responds with status 500 and the fixed
body `{"error": "Error processing your request"}`; since the body is this
fixed constant for every thrown error `e`, no text derived from the
downstream error ever reaches the response. -/
theorem handler_post_error {E R : Type} (e : E) :
    handler (R := R) "POST" (Except.error e) =
      { status := 500, body := RespBody.errorMsg "Error processing your request",
        downstreamCalled := true } := rfl

/-- C2: for any request whose method is not POST, the handler responds 405
with the JSON error body `{"error": "Method not allowed"}` and the
downstream completion service is not called, whatever its outcome would
have been. -/
theorem handler_non_post {E R : Type} (method : String) (downstream : Except E R)
    (h : method ≠ "POST") :
    handler method downstream =
      { status := 405, body := RespBody.errorMsg "Method not allowed",
        downstreamCalled := false } := by
  unfold handler
  rw [if_pos h]

theorem handler_non_post_witness :
    handler (E := Unit) (R := Nat) "GET" (Except.ok 0) =
      { status := 405, body := RespBody.errorMsg "Method not allowed",
        downstreamCalled := false } :=
  handler_non_post "GET" (Except.ok 0) (by decide)

/-- C3: a selection whose file count exceeds `MAX_IMAGES = 5` leaves both
the image list and the result list exactly as they were and shows the
destructive error toast. -/
theorem handleImageUpload_reject {F : Type} (createObjectURL : F → Nat) (files : List F)
    (s : AppState F) (h : files.length > MAX_IMAGES) :
    (handleImageUpload createObjectURL files s).1.images = s.images ∧
    (handleImageUpload createObjectURL files s).1.results = s.results ∧
    (handleImageUpload createObjectURL files s).2 = true := by
  unfold handleImageUpload
  rw [if_pos h]
  exact ⟨rfl, rfl, rfl⟩

theorem handleImageUpload_reject_witness :
    (handleImageUpload (fun n : Nat => n) [0, 1, 2, 3, 4, 5] (initialState Nat)).1.images =
        (initialState Nat).images ∧
    (handleImageUpload (fun n : Nat => n) [0, 1, 2, 3, 4, 5] (initialState Nat)).1.results =
        (initialState Nat).results ∧
    (handleImageUpload (fun n : Nat => n) [0, 1, 2, 3, 4, 5] (initialState Nat)).2 = true :=
  handleImageUpload_reject (fun n => n) [0, 1, 2, 3, 4, 5] (initialState Nat) (by decide)

/-- C4: parsing the text
`"Description: A cat.\nKeywords: cat, pet, animal\nTokens used: 42"` yields
description `"A cat."`, keywords `["cat", "pet", "animal"]` and
`tokensUsed = 42`. -/
theorem parseResponse_round_trip :
    parseResponse "Description: A cat.\nKeywords: cat, pet, animal\nTokens used: 42" =
      { description := "A cat.", keywords := ["cat", "pet", "animal"], tokensUsed := 42 } := by
  rfl

/-- C5: `parseResponse` is a total function (so it never throws), and on any
input lacking the `Description:` marker it returns the empty description, on
any input lacking the `Keywords:` marker the empty keyword list, and on any
input lacking the `Tokens used:` marker a token count of 0.  (The source
regexes look for the marker followed by a space, so absence of the marker
itself is in particular absence of the longer pattern.) -/
theorem parseResponse_defaults (content : String) :
    (containsSub "Description:".data content.data = false →
      (parseResponse content).description = "") ∧
    (containsSub "Keywords:".data content.data = false →
      (parseResponse content).keywords = []) ∧
    (containsSub "Tokens used:".data content.data = false →
      (parseResponse content).tokensUsed = 0) := by
  refine ⟨fun hd => ?_, fun hk => ?_, fun ht => ?_⟩
  · have : afterFirst descMarker content.data = none := by
      rw [descMarker_eq]
      exact afterFirst_append_none _ _ _ hd
    simp [parseResponse, this]
  · have : afterFirst keywordsMarker content.data = none := by
      rw [keywordsMarker_eq]
      exact afterFirst_append_none _ _ _ hk
    simp [parseResponse, this]
  · have : findTokensUsed tokensMarker content.data = none := by
      rw [tokensMarker_eq]
      exact findTokensUsed_append_none _ _ _ ht
    simp [parseResponse, this]

theorem parseResponse_defaults_witness :
    (parseResponse "hello").description = "" ∧
    (parseResponse "hello").keywords = [] ∧
    (parseResponse "hello").tokensUsed = 0 :=
  ⟨(parseResponse_defaults "hello").1 (by decide),
   (parseResponse_defaults "hello").2.1 (by decide),
   (parseResponse_defaults "hello").2.2 (by decide)⟩

/-- C6: if the per-image pipeline fails at position `k`, the loop still
processes every image: the accumulated results are exactly the successful
outcomes in order (so every image after `k` whose pipeline succeeds
contributes its result entry), and at least one error toast is shown. -/
theorem generateLoop_continues (outcomes : List (Except Unit Result)) (k : Nat)
    (h : outcomes[k]? = some (Except.error ())) :
    (generateLoop outcomes).1 = successes outcomes ∧ 1 ≤ (generateLoop outcomes).2 :=
  ⟨generateLoop_fst_eq_successes outcomes, generateLoop_snd_pos outcomes k h⟩

theorem generateLoop_continues_witness :
    (generateLoop sampleOutcomes).1 = successes sampleOutcomes ∧
    1 ≤ (generateLoop sampleOutcomes).2 :=
  generateLoop_continues sampleOutcomes 1 rfl

/-- C7: for an in-bounds index `i`, `removeImage` deletes exactly the image
entry at position `i` and exactly the result entry at position `i` when one
exists (`List.eraseIdx` leaves the list unchanged when `i` is out of range
of the shorter result list), preserving the relative order of everything
else. -/
theorem removeImage_spec {F : Type} (s : AppState F) (i : Nat)
    (_h : i < s.images.length) :
    (removeImage s i).images = s.images.eraseIdx i ∧
    (removeImage s i).results = s.results.eraseIdx i := by
  exact ⟨filterIdx_zero_eq_eraseIdx i s.images, filterIdx_zero_eq_eraseIdx i s.results⟩

theorem removeImage_spec_witness :
    (removeImage twoImagesOneResult 0).images = twoImagesOneResult.images.eraseIdx 0 ∧
    (removeImage twoImagesOneResult 0).results = twoImagesOneResult.results.eraseIdx 0 :=
  removeImage_spec twoImagesOneResult 0 (by decide)

/-- C8 (counterexample): in the `Index.jsx` variant the claim is false.
From a state with one image and one existing result, selecting one more
file is accepted (the guard `images.length + files.length > 5` does not
fire: no error toast), yet immediately afterwards the result list still
holds the old result — it is not empty. -/
theorem handleImageUploadJsx_keeps_results_counterexample :
    (handleImageUploadJsx (fun n : Nat => n) [9] sampleState).2 = false ∧
    (handleImageUploadJsx (fun n : Nat => n) [9] sampleState).1.results = [sampleResult] ∧
    [sampleResult] ≠ ([] : List Result) := by
  refine ⟨rfl, rfl, ?_⟩
  decide

/-- C8 (amended): an accepted selection clears the results only in the
`index.tsx` variant — there, whenever the chosen file count is at most
`MAX_IMAGES = 5`, the result list is empty immediately after the
selection.  The `Index.jsx` variant accepts when existing plus chosen
images number at most 5, appends the new image entries to the image list,
and leaves the result list exactly unchanged. -/
theorem handleImageUpload_accept_results {F : Type} (createObjectURL : F → Nat)
    (files : List F) (s : AppState F) :
    (files.length ≤ MAX_IMAGES →
      (handleImageUpload createObjectURL files s).1.results = []) ∧
    (s.images.length + files.length ≤ MAX_IMAGES →
      (handleImageUploadJsx createObjectURL files s).1.results = s.results ∧
      (handleImageUploadJsx createObjectURL files s).1.images =
        s.images ++ files.map (fun f => { file := f, preview := createObjectURL f })) := by
  constructor
  · intro h
    unfold handleImageUpload
    rw [if_neg (by omega)]
  · intro h
    unfold handleImageUploadJsx
    rw [if_neg (by omega)]
    exact ⟨rfl, rfl⟩

theorem handleImageUpload_accept_results_witness :
    (handleImageUpload (fun n : Nat => n) [0, 1] sampleState).1.results = [] ∧
    ((handleImageUploadJsx (fun n : Nat => n) [0, 1] sampleState).1.results =
        sampleState.results ∧
      (handleImageUploadJsx (fun n : Nat => n) [0, 1] sampleState).1.images =
        sampleState.images ++ [0, 1].map (fun f => { file := f, preview := f })) :=
  ⟨(handleImageUpload_accept_results (fun n => n) [0, 1] sampleState).1 (by decide),
   (handleImageUpload_accept_results (fun n => n) [0, 1] sampleState).2 (by decide)⟩

/-- C9 (counterexample): in the `Index.jsx` variant the claim is false.
From a state whose file input displays `"photo.png"`, `clearAll` empties
both lists but never touches the input element, so afterwards the
displayed value is still `"photo.png"`, not the empty string. -/
theorem clearAllJsx_counterexample :
    (clearAllJsx sampleState).images = [] ∧
    (clearAllJsx sampleState).results = [] ∧
    (clearAllJsx sampleState).fileInput = some "photo.png" ∧
    (clearAllJsx sampleState).fileInput ≠ some "" := by
  refine ⟨rfl, rfl, rfl, ?_⟩
  decide

/-- C9 (amended): after `clearAll`, from any prior state, the image list
and the result list are empty in both variants; the file input's displayed
value becomes the empty string in the `index.tsx` variant (whose handler
resets the ref'd input element), while the `Index.jsx` variant leaves the
file input's displayed value unchanged. -/
theorem clearAll_spec {F : Type} (s : AppState F) (v : String)
    (h : s.fileInput = some v) :
    ((clearAll s).images = [] ∧ (clearAll s).results = [] ∧
      (clearAll s).fileInput = some "") ∧
    ((clearAllJsx s).images = [] ∧ (clearAllJsx s).results = [] ∧
      (clearAllJsx s).fileInput = some v) := by
  refine ⟨⟨rfl, rfl, ?_⟩, rfl, rfl, h⟩
  simp [clearAll, h]

theorem clearAll_spec_witness :
    ((clearAll sampleState).images = [] ∧ (clearAll sampleState).results = [] ∧
      (clearAll sampleState).fileInput = some "") ∧
    ((clearAllJsx sampleState).images = [] ∧ (clearAllJsx sampleState).results = [] ∧
      (clearAllJsx sampleState).fileInput = some "photo.png") :=
  clearAll_spec sampleState "photo.png" rfl

/-- C10: in every state reachable from the empty page by any sequence of
select, remove, generate and clear operations, the result list is never
longer than the image list; consequently every index at which a result row
is rendered is in bounds for the image list. -/
theorem results_length_invariant {F : Type} (createObjectURL : F → Nat)
    (s : AppState F) (h : Reachable createObjectURL s) :
    s.results.length ≤ s.images.length ∧
    ∀ j, j < s.results.length → j < s.images.length := by
  have main : s.results.length ≤ s.images.length := by
    induction h with
    | init => simp [initialState]
    | step hr hs ih =>
      cases hs with
      | select files =>
        unfold handleImageUpload
        by_cases hf : files.length > MAX_IMAGES
        · rw [if_pos hf]
          exact ih
        · rw [if_neg hf]
          simp
      | remove i =>
        unfold removeImage
        simp only [filterIdx_zero_eq_eraseIdx, length_eraseIdx']
        split_ifs <;> omega
      | generate outcomes hlen =>
        unfold generateDescriptionAndKeywords
        have := generateLoop_fst_length_le outcomes
        simp only
        omega
      | clear =>
        simp [clearAll]
  exact ⟨main, fun j hj => Nat.lt_of_lt_of_le hj main⟩

theorem results_length_invariant_witness :
    (initialState Nat).results.length ≤ (initialState Nat).images.length ∧
    ∀ j, j < (initialState Nat).results.length → j < (initialState Nat).images.length :=
  results_length_invariant (fun n => n) (initialState Nat) Reachable.init

end ImageToolbox
